import Mathlib

/-!
Verification of the SBCK Optimal-Transport bias Corrector (`SBCK/__OTC.py`)
and the ECBC corrector (`SBCK/__ECBC.py`).

Shallow embedding conventions:
* sample matrices are `List (List ℚ)` (row-major, rationals in place of floats);
* a stored float that may be NaN/non-finite is an `Option ℚ`, with `none`
  standing for the undefined result of dividing by a zero row sum;
* collaborators whose code is not part of the analysed sources
  (`SparseHist`, the two OT solvers' internals, `bin_width_estimator`,
  `CDFt`, `SchaakeShuffle`) are kept abstract: either as structure fields
  holding opaque data/functions or as explicit function parameters,
  universally quantified in the theorems;
* Python object identity of solver instances is made observable through an
  explicit `instId` field, and `OTC.fit` additionally returns the list of
  printed warnings and the list of solver-instance ids it ran `fit` on, in
  order (pure instrumentation of the calls the Python code performs).
-/

namespace SBCK

/-- A row vector of rationals (one sample, or one grid vector). -/
abbrev Vec := List ℚ

/-- A sample matrix: a list of rows. -/
abbrev Mat := List Vec

/-- Ravel: `np.array([v]).ravel()` applied to a 1-D vector is the vector itself. -/
def ravel (v : Vec) : Vec := v

/-- Division as performed by numpy on the plan entries: dividing by a zero
row sum yields a non-finite value (NaN for the 0/0 entries of an all-zero
row), modelled as `none`; otherwise exact rational division. -/
def fdiv (a b : ℚ) : Option ℚ := if b = 0 then none else some (a / b)

/-- The row-normalization of `OTC.fit` (line 177):
`self._plan = (self._plan.T / self._plan.sum(axis=1)).T`, i.e. every entry
of row `i` is divided by the sum of row `i`. -/
def rowNormalize (p : List (List ℚ)) : List (List (Option ℚ)) :=
  p.map (fun row => row.map (fun a => fdiv a row.sum))

/-- NaN-propagating sum of a stored plan row: `none` as soon as one entry
is non-finite, otherwise the sum of the values. -/
def sumO : List (Option ℚ) → Option ℚ
  | [] => some 0
  | a :: rest => a.bind (fun x => (sumO rest).map (fun s => x + s))

/-- Interface of `SparseHist` (from `tools.__tools_cpp`, whose implementation
is not among the analysed sources): the members `OTC` uses are the ordered
bin centers `c`, the number of occupied bins `size`, and the point-to-bin
lookup `argwhere`.  Kept fully abstract. -/
structure Hist where
  c : Mat
  size : Nat
  argwhere : Mat → List Nat

/-- The two solver variants `OTC` can hold. -/
inductive SolverKind where
  | networkSimplex
  | sinkhornLogDual
deriving DecidableEq, Repr

/-- An OT solver object as `OTC` observes it: its variant, its Python object
identity `instId`, its success flag `state`, and the raw transport plan
`plan()` it computed.  Running `solver.fit(muX, muY)` is modelled by an
abstract function `Solver → Hist → Hist → Solver` returning the updated
object (same `instId`). -/
structure Solver where
  kind : SolverKind
  instId : Nat
  state : Bool
  plan : List (List ℚ)
deriving DecidableEq, Repr

/-- Modelled from the spec: the freshly constructed `OTSinkhornLogDual()`
fallback solver instance built inside `OTC.fit` (its constructor is not
among the analysed sources).  Only its variant and its fresh identity
matter to the claims; its initial flag/plan are defaults. -/
def freshSinkhornInst (sid : Nat) : Solver :=
  { kind := SolverKind.sinkhornLogDual, instId := sid, state := false, plan := [] }

/-- The state of an `OTC` corrector object (`__init__`, lines 137-142):
`muX`, `muY` and `_plan` start as `None`; `bin_width`/`bin_origin` may be
`None`; `_ot` holds the configured solver object. -/
structure OTC where
  muX : Option Hist
  muY : Option Hist
  bin_width : Option Vec
  bin_origin : Option Vec
  plan : Option (List (List (Option ℚ)))
  ot : Solver

/-- Constructor `OTC.__init__(bin_width, bin_origin, ot)`. -/
def OTC.init (bin_width bin_origin : Option Vec) (ot : Solver) : OTC :=
  { muX := none, muY := none, bin_width := bin_width, bin_origin := bin_origin,
    plan := none, ot := ot }

/-- Line 158 of `OTC.fit`: `bin_width` is the ravelled caller-supplied value
when present, else `bin_width_estimator([Y0, X0])` (the estimator `bwe` is an
external collaborator, kept abstract). -/
def OTC.fitBW (bwe : List Mat → Vec) (s : OTC) (Y0 X0 : Mat) : Vec :=
  match s.bin_width with
  | some w => ravel w
  | none => bwe [Y0, X0]

/-- Line 159 of `OTC.fit`: `bin_origin` is the ravelled caller-supplied value
when present, else `np.zeros(self.bin_width.size)` for the just-determined
`bin_width`. -/
def OTC.fitBO (s : OTC) (bw : Vec) : Vec :=
  match s.bin_origin with
  | some o => ravel o
  | none => List.replicate bw.length 0

/-- Lines 169-173 of `OTC.fit`: run the configured solver; if its `state`
flag is false, print the warning and run a freshly constructed
`OTSinkhornLogDual()` on the same two histograms.  Returns the final solver
object, the printed warnings, and the ids of the solver instances whose
`fit` was called, in order. -/
def OTC.fitRun (run : Solver → Hist → Hist → Solver) (sid : Nat) (ot : Solver)
    (muX muY : Hist) : Solver × List String × List Nat :=
  let r1 := run ot muX muY
  if r1.state then (r1, [], [ot.instId])
  else
    let snk := freshSinkhornInst sid
    (run snk muX muY,
     ["Warning: Error in network simplex, try SinkhornLogDual"],
     [ot.instId, snk.instId])

/-- Line 161 of `OTC.fit`: the determined `bin_width` after the final
re-ravel. -/
def OTC.fitGridW (bwe : List Mat → Vec) (s : OTC) (Y0 X0 : Mat) : Vec :=
  ravel (OTC.fitBW bwe s Y0 X0)

/-- Line 162 of `OTC.fit`: the determined `bin_origin` after the final
re-ravel. -/
def OTC.fitGridO (bwe : List Mat → Vec) (s : OTC) (Y0 X0 : Mat) : Vec :=
  ravel (OTC.fitBO s (OTC.fitGridW bwe s Y0 X0))

/-- Line 164 of `OTC.fit`: the reference histogram, built from `Y0` with the
determined grid. -/
def OTC.fitMuY (mkH : Mat → Vec → Vec → Hist) (bwe : List Mat → Vec)
    (s : OTC) (Y0 X0 : Mat) : Hist :=
  mkH Y0 (OTC.fitGridW bwe s Y0 X0) (OTC.fitGridO bwe s Y0 X0)

/-- Line 165 of `OTC.fit`: the biased-data histogram, built from `X0` with
the same determined grid. -/
def OTC.fitMuX (mkH : Mat → Vec → Vec → Hist) (bwe : List Mat → Vec)
    (s : OTC) (Y0 X0 : Mat) : Hist :=
  mkH X0 (OTC.fitGridW bwe s Y0 X0) (OTC.fitGridO bwe s Y0 X0)

/-- Fit: `OTC.fit(Y0, X0)` (lines 158-177).  `mkH` is the abstract `SparseHist`
constructor, `bwe` the abstract bin-width estimator, `run` the abstract
behaviour of `solver.fit`, `sid` the identity of the fresh fallback object.
Besides the updated corrector, returns the printed warnings and the list of
solver-instance ids run. -/
def OTC.fit (mkH : Mat → Vec → Vec → Hist) (bwe : List Mat → Vec)
    (run : Solver → Hist → Hist → Solver) (sid : Nat)
    (s : OTC) (Y0 X0 : Mat) : OTC × List String × List Nat :=
  let r := OTC.fitRun run sid s.ot (OTC.fitMuX mkH bwe s Y0 X0) (OTC.fitMuY mkH bwe s Y0 X0)
  ({ muX := some (OTC.fitMuX mkH bwe s Y0 X0), muY := some (OTC.fitMuY mkH bwe s Y0 X0),
     bin_width := some (OTC.fitGridW bwe s Y0 X0),
     bin_origin := some (OTC.fitGridO bwe s Y0 X0),
     plan := some (rowNormalize r.1.plan), ot := r.1 },
   r.2.1, r.2.2)

/-- Modelled from the spec: `np.random.choice(range(n), p = row)` draws the
categorical index by inverse-CDF sampling of a uniform value `u` (the spec's
prescribed reimplementation of the library sampler, §9). -/
def catSample (p : List ℚ) (u : ℚ) : Nat :=
  match p with
  | [] => 0
  | q :: rest => if u < q then 0 else 1 + catSample rest (u - q)

/-- One draw of `predict`'s loop body (line 197): `np.random.choice` checks
that the probability vector has length `muY.size`, sums to 1 and is
non-negative (raising otherwise, modelled as `none`), draws an index and
looks up the corresponding reference bin center `muY.c[j]`. -/
def sampleRow (muY : Hist) (row : List ℚ) (u : ℚ) : Option Vec :=
  if row.length = muY.size ∧ row.sum = 1 ∧ ∀ x ∈ row, 0 ≤ x then
    muY.c.get? (catSample row u)
  else none

/-- A stored plan row is usable by `np.random.choice` only if every entry is
finite; recover the rational row, failing on any `none` (NaN). -/
def seqRow : List (Option ℚ) → Option (List ℚ)
  | [] => some []
  | none :: _ => none
  | some x :: rest => (seqRow rest).map (fun r => x :: r)

/-- The loop of `OTC.predict` (lines 195-198) over the source-bin indices
`indx`, with `us i` the uniform draw consumed at row `i`. -/
def predictRows (muY : Hist) (plan : List (List (Option ℚ))) (us : Nat → ℚ) :
    Nat → List Nat → Option Mat
  | _, [] => some []
  | i, ix :: rest =>
    (plan.get? ix).bind fun rowO =>
      (seqRow rowO).bind fun row =>
        (sampleRow muY row (us i)).bind fun z =>
          (predictRows muY plan us (i + 1) rest).map fun zs => z :: zs

/-- Predict: `OTC.predict(X0)` (lines 180-198).  On a corrector whose state was never
populated (`muX`, `muY`, `_plan` still `None`) the very first access
`self.muX.argwhere(X0)` fails, before any sampling: modelled as `none`. -/
def OTC.predict (s : OTC) (X : Mat) (us : Nat → ℚ) : Option Mat :=
  match s.muX, s.muY, s.plan with
  | some muX, some muY, some plan => predictRows muY plan us 0 (muX.argwhere X)
  | _, _, _ => none

/-! ### ECBC (`SBCK/__ECBC.py`) -/

/-- The result of `CDFt.predict` / `ECBC.predict`: a pair `(Z1, Z0)` of
corrected matrices when a calibration-period `X0` was passed, a single
corrected matrix `Z1` when it was `None`. -/
inductive BCOut where
  | pair (Z1 Z0 : Mat)
  | single (Z1 : Mat)
deriving DecidableEq

/-- A fitted `ECBC` corrector as `ECBC.predict` observes it: the inherited
`CDFt.predict` (a collaborator whose code is not among the analysed sources,
kept abstract in its two arities: `cdft2 X1 x0` is `CDFt.predict(self, X1, X0)`
with `X0` given, `cdft1 X1` the same call with `X0 = None`) and the fitted
Schaake-shuffle `self._ss.predict`, also abstract. -/
structure ECBC where
  cdft1 : Mat → Mat
  cdft2 : Mat → Mat → Mat × Mat
  ss : Mat → Mat

/-- Predict: `ECBC.predict(X1, X0)` (lines 147-175): run the inherited `CDFt.predict`,
then pass every returned matrix through the fitted Schaake-shuffle; return a
pair when `X0` was given, a single matrix otherwise. -/
def ECBC.predict (e : ECBC) (X1 : Mat) (X0 : Option Mat) : BCOut :=
  match X0 with
  | some x0 => BCOut.pair (e.ss (e.cdft2 X1 x0).1) (e.ss (e.cdft2 X1 x0).2)
  | none => BCOut.single (e.ss (e.cdft1 X1))

/-! ### Concrete instances used by witnesses and counterexamples -/

/-- A configured exact solver object with identity 0, as fresh from its
constructor. -/
def ot0 : Solver :=
  { kind := SolverKind.networkSimplex, instId := 0, state := false, plan := [] }

/-- A concrete `SparseHist` constructor: the data rows as centers, one
occupied bin per row, every query mapped to bin 0. -/
def mkHC : Mat → Vec → Vec → Hist :=
  fun Y _ _ => { c := Y, size := Y.length, argwhere := fun X => List.replicate X.length 0 }

/-- A concrete bin-width estimator returning `[1]`. -/
def bweC : List Mat → Vec := fun _ => [1]

/-- A concrete uniform-draw stream, always 0. -/
def usC : Nat → ℚ := fun _ => 0

/-- A concrete solver behaviour that always succeeds with the raw plan
`[[1, 1]]`. -/
def runOKC : Solver → Hist → Hist → Solver :=
  fun s _ _ => { s with state := true, plan := [[1, 1]] }

/-- A concrete solver behaviour under which the exact solver fails and the
Sinkhorn solver succeeds. -/
def runFBC : Solver → Hist → Hist → Solver :=
  fun s _ _ =>
    if s.kind = SolverKind.sinkhornLogDual then { s with state := true, plan := [[1]] }
    else { s with state := false, plan := [] }

/-- A concrete solver behaviour that succeeds with a raw plan whose second
row is all zero (a source bin with zero assigned mass). -/
def runZRC : Solver → Hist → Hist → Solver :=
  fun s _ _ => { s with state := true, plan := [[1, 0], [0, 0]] }

/-- The corrector obtained by a first successful `fit` from the freshly
constructed state. -/
def s1C : OTC :=
  (OTC.fit mkHC bweC runOKC 3 (OTC.init none none ot0) [[2]] [[4]]).1

/-- A concrete reference histogram with the single center `[5]`. -/
def hYC : Hist :=
  { c := [[5]], size := 1, argwhere := fun X => List.replicate X.length 0 }

/-- A concrete biased-data histogram with the single center `[2]`. -/
def hXC : Hist :=
  { c := [[2]], size := 1, argwhere := fun X => List.replicate X.length 0 }

/-- A concrete fitted corrector state with the 1×1 normalized plan `[[1]]`. -/
def sFitC : OTC :=
  { muX := some hXC, muY := some hYC, bin_width := some [1], bin_origin := some [0],
    plan := some [[some 1]],
    ot := { kind := SolverKind.networkSimplex, instId := 0, state := true, plan := [[1]] } }

end SBCK

namespace SBCK

/-! ### Helper lemmas -/

/-- Summing a row after multiplying every entry by a constant. -/
theorem sumO_map_mul (row : List ℚ) (c : ℚ) :
    sumO (row.map (fun a => some (a * c))) = some (row.sum * c) := by
  induction row with
  | nil => simp [sumO]
  | cons q rest ih => simp [sumO, ih, add_mul]

/-- A row of a normalized plan whose raw row sum is positive has only finite
entries and sums to 1. -/
theorem sumO_rowNormalize_of_pos (row : List ℚ) (hpos : 0 < row.sum) :
    sumO (row.map (fun a => fdiv a row.sum)) = some 1 := by
  have hne : row.sum ≠ 0 := ne_of_gt hpos
  have hfun : (fun a => fdiv a row.sum) = fun a => some (a * (row.sum)⁻¹) := by
    funext a
    simp [fdiv, hne, div_eq_mul_inv]
  rw [hfun, sumO_map_mul, mul_inv_cancel₀ hne]

/-- Normalization acts rowwise through `get?`. -/
theorem rowNormalize_get? (p : List (List ℚ)) (i : Nat) :
    (rowNormalize p).get? i = (p.get? i).map (fun row => row.map (fun a => fdiv a row.sum)) := by
  simp [rowNormalize, List.get?_eq_getElem?, List.getElem?_map]

/-- A successful draw returns one of the reference-histogram bin centers. -/
theorem sampleRow_mem (muY : Hist) (row : List ℚ) (u : ℚ) (z : Vec)
    (h : sampleRow muY row u = some z) : z ∈ muY.c := by
  unfold sampleRow at h
  by_cases hc : row.length = muY.size ∧ row.sum = 1 ∧ ∀ x ∈ row, 0 ≤ x
  · rw [if_pos hc] at h
    exact List.get?_mem h
  · rw [if_neg hc] at h
    cases h

/-- Every row of a successful `predictRows` result is a reference bin
center. -/
theorem predictRows_mem (muY : Hist) (plan : List (List (Option ℚ))) (us : Nat → ℚ) :
    ∀ (l : List Nat) (i : Nat) (Z : Mat), predictRows muY plan us i l = some Z →
      ∀ z ∈ Z, z ∈ muY.c := by
  intro l
  induction l with
  | nil =>
    intro i Z h z hz
    rw [predictRows] at h
    cases h
    cases hz
  | cons ix rest ih =>
    intro i Z h z hz
    rw [predictRows] at h
    obtain ⟨rowO, -, h⟩ := Option.bind_eq_some.mp h
    obtain ⟨row, -, h⟩ := Option.bind_eq_some.mp h
    obtain ⟨z0, hz0, h⟩ := Option.bind_eq_some.mp h
    obtain ⟨zs, hzs, rfl⟩ := Option.map_eq_some'.mp h
    rcases List.mem_cons.mp hz with rfl | hmem
    · exact sampleRow_mem muY row (us i) z hz0
    · exact ih (i + 1) zs hzs z hmem

/-- A successful `predictRows` result has one output row per source-bin
index. -/
theorem predictRows_length (muY : Hist) (plan : List (List (Option ℚ))) (us : Nat → ℚ) :
    ∀ (l : List Nat) (i : Nat) (Z : Mat), predictRows muY plan us i l = some Z →
      Z.length = l.length := by
  intro l
  induction l with
  | nil =>
    intro i Z h
    rw [predictRows] at h
    cases h
    rfl
  | cons ix rest ih =>
    intro i Z h
    rw [predictRows] at h
    obtain ⟨rowO, -, h⟩ := Option.bind_eq_some.mp h
    obtain ⟨row, -, h⟩ := Option.bind_eq_some.mp h
    obtain ⟨z0, -, h⟩ := Option.bind_eq_some.mp h
    obtain ⟨zs, hzs, rfl⟩ := Option.map_eq_some'.mp h
    simp [ih (i + 1) zs hzs]

/-- Concrete evaluation of `predict` on the fitted fixture: the query
`[[2]]` lands in bin 0 and is remapped to the reference center `[5]`. -/
theorem predict_sFitC_eval : OTC.predict sFitC [[(2 : ℚ)]] usC = some [[(5 : ℚ)]] := by
  show predictRows hYC [[some 1]] usC 0 [0] = some [[(5 : ℚ)]]
  norm_num [predictRows, seqRow, sampleRow, catSample, hYC, usC]

/-! ### Claims -/

/-- Claim C1: for every fitted `OTC` corrector whose raw transport plan
(the plan of the retained solver) has a strictly positive sum in every row,
every row of the normalized plan stored by `fit` is finite and sums to 1 —
a conditional probability table over target bins given a source bin. -/
theorem otc_fit_normalized_plan_rows_sum_one
    (mkH : Mat → Vec → Vec → Hist) (bwe : List Mat → Vec)
    (run : Solver → Hist → Hist → Solver) (sid : Nat) (s : OTC) (Y0 X0 : Mat)
    (hpos : ∀ row ∈ ((OTC.fit mkH bwe run sid s Y0 X0).1.ot).plan, 0 < row.sum)
    (P : List (List (Option ℚ)))
    (hP : (OTC.fit mkH bwe run sid s Y0 X0).1.plan = some P) :
    ∀ nr ∈ P, sumO nr = some 1 := by
  have hplan : (OTC.fit mkH bwe run sid s Y0 X0).1.plan
      = some (rowNormalize ((OTC.fit mkH bwe run sid s Y0 X0).1.ot).plan) := rfl
  rw [hplan] at hP
  obtain rfl := Option.some.inj hP
  intro nr hnr
  simp only [rowNormalize] at hnr
  obtain ⟨row, hrow, rfl⟩ := List.mem_map.mp hnr
  exact sumO_rowNormalize_of_pos row (hpos row hrow)

/-- Witness for C1: a concrete fit whose raw plan is `[[1, 1]]` stores the
normalized row `[1/2, 1/2]`, which sums to 1. -/
theorem otc_fit_normalized_plan_rows_sum_one_witness :
    sumO [some ((1 : ℚ)/2), some ((1 : ℚ)/2)] = some 1 := by
  have h := otc_fit_normalized_plan_rows_sum_one mkHC bweC runOKC 3
      (OTC.init none none ot0) [[2]] [[4]]
      (show ∀ row ∈ [[(1 : ℚ), 1]], 0 < row.sum by norm_num) _ rfl
  have hm : [some ((1 : ℚ)/2), some ((1 : ℚ)/2)] ∈ rowNormalize [[(1 : ℚ), 1]] := by
    norm_num [rowNormalize, fdiv]
  exact h [some ((1 : ℚ)/2), some ((1 : ℚ)/2)] hm

/-- Counterexample to claim C2: `OTC.fit` has no guard for a raw-plan row
whose sum is zero.  On this concrete input the solver returns the raw plan
`[[1, 0], [0, 0]]` and `fit` silently stores a normalized plan whose second
row consists of undefined (NaN) entries, refuting the claim that every such
degenerate row is guarded against explicitly. -/
theorem otc_fit_zero_row_not_guarded_cex :
    (OTC.fit mkHC bweC runZRC 9 (OTC.init (some [1]) (some [0]) ot0)
        [[0], [1]] [[0], [1]]).1.plan
      = some [[some 1, some 0], [none, none]] := by
  show some (rowNormalize [[(1 : ℚ), 0], [0, 0]])
      = some [[some 1, some 0], [none, none]]
  norm_num [rowNormalize, fdiv]

/-- Claim C2 amended: `OTC.fit` does not guard the zero-row-sum case: for
every fit whose raw plan has a row with sum zero, the stored normalized plan
holds, at that row, a row of the same length made entirely of undefined
(NaN) entries, silently. -/
theorem otc_fit_zero_row_nan
    (mkH : Mat → Vec → Vec → Hist) (bwe : List Mat → Vec)
    (run : Solver → Hist → Hist → Solver) (sid : Nat) (s : OTC) (Y0 X0 : Mat)
    (i : Nat) (row : List ℚ)
    (hrow : ((OTC.fit mkH bwe run sid s Y0 X0).1.ot).plan.get? i = some row)
    (hsum : row.sum = 0)
    (P : List (List (Option ℚ)))
    (hP : (OTC.fit mkH bwe run sid s Y0 X0).1.plan = some P) :
    ∃ r, P.get? i = some r ∧ r.length = row.length ∧ ∀ e ∈ r, e = none := by
  have hplan : (OTC.fit mkH bwe run sid s Y0 X0).1.plan
      = some (rowNormalize ((OTC.fit mkH bwe run sid s Y0 X0).1.ot).plan) := rfl
  rw [hplan] at hP
  obtain rfl := Option.some.inj hP
  refine ⟨row.map (fun a => fdiv a row.sum), ?_, by simp, ?_⟩
  · rw [rowNormalize_get?, hrow]
    rfl
  · intro e he
    obtain ⟨a, -, rfl⟩ := List.mem_map.mp he
    simp [fdiv, hsum]

/-- Witness for the amended C2: on the concrete degenerate fit, row 1 of the
stored plan is a length-2 row of NaN entries. -/
theorem otc_fit_zero_row_nan_witness :
    ∃ r, (rowNormalize [[(1 : ℚ), 0], [0, 0]]).get? 1 = some r ∧
      r.length = 2 ∧ ∀ e ∈ r, e = none := by
  have h := otc_fit_zero_row_nan mkHC bweC runZRC 9
      (OTC.init (some [1]) (some [0]) ot0) [[0], [1]] [[0], [1]]
      1 [0, 0] rfl (by simp) _ rfl
  exact h

/-- Claim C3: in `OTC.fit`, when the configured solver reports
`state = false`, fit prints exactly the recoverable warning and retries
exactly once, running a freshly constructed `OTSinkhornLogDual` fallback on
the same two histograms; when the configured solver succeeds there is no
warning and no retry; and in either case the fit completes, storing a
normalized plan (non-convergence never aborts the call). -/
theorem otc_fit_solver_fallback
    (mkH : Mat → Vec → Vec → Hist) (bwe : List Mat → Vec)
    (run : Solver → Hist → Hist → Solver) (sid : Nat) (s : OTC) (Y0 X0 : Mat) :
    ((run s.ot (OTC.fitMuX mkH bwe s Y0 X0) (OTC.fitMuY mkH bwe s Y0 X0)).state = false →
      (OTC.fit mkH bwe run sid s Y0 X0).2.1
          = ["Warning: Error in network simplex, try SinkhornLogDual"] ∧
      (OTC.fit mkH bwe run sid s Y0 X0).1.ot
          = run (freshSinkhornInst sid) (OTC.fitMuX mkH bwe s Y0 X0)
              (OTC.fitMuY mkH bwe s Y0 X0) ∧
      (OTC.fit mkH bwe run sid s Y0 X0).2.2 = [s.ot.instId, sid]) ∧
    ((run s.ot (OTC.fitMuX mkH bwe s Y0 X0) (OTC.fitMuY mkH bwe s Y0 X0)).state = true →
      (OTC.fit mkH bwe run sid s Y0 X0).2.1 = [] ∧
      (OTC.fit mkH bwe run sid s Y0 X0).2.2 = [s.ot.instId] ∧
      (OTC.fit mkH bwe run sid s Y0 X0).1.ot
          = run s.ot (OTC.fitMuX mkH bwe s Y0 X0) (OTC.fitMuY mkH bwe s Y0 X0)) ∧
    ((OTC.fit mkH bwe run sid s Y0 X0).1.plan).isSome = true := by
  refine ⟨fun h => ?_, fun h => ?_, rfl⟩
  · simp [OTC.fit, OTC.fitRun, h, freshSinkhornInst]
  · simp [OTC.fit, OTC.fitRun, h]

/-- Witness for C3: a concrete solver behaviour under which the exact solver
fails makes fit print exactly the warning and run the configured instance
then the fresh Sinkhorn instance. -/
theorem otc_fit_solver_fallback_witness :
    (OTC.fit mkHC bweC runFBC 3 (OTC.init none none ot0) [[2]] [[4]]).2.1
        = ["Warning: Error in network simplex, try SinkhornLogDual"] ∧
    (OTC.fit mkHC bweC runFBC 3 (OTC.init none none ot0) [[2]] [[4]]).2.2 = [0, 3] := by
  have h := (otc_fit_solver_fallback mkHC bweC runFBC 3
      (OTC.init none none ot0) [[2]] [[4]]).1 (by decide)
  exact ⟨h.1, h.2.2⟩

/-- Claim C4: every row of a successful `OTC.predict` output is one of the
reference histogram's bin centers `muY.c` — the correction is bin-quantized,
never interpolated. -/
theorem otc_predict_rows_are_bin_centers
    (s : OTC) (X : Mat) (us : Nat → ℚ) (Z : Mat) (muY : Hist)
    (hY : s.muY = some muY) (h : OTC.predict s X us = some Z) :
    ∀ z ∈ Z, z ∈ muY.c := by
  cases hmx : s.muX with
  | none =>
    rw [OTC.predict.eq_def, hmx] at h
    cases h
  | some muX =>
    cases hp : s.plan with
    | none =>
      rw [OTC.predict.eq_def, hmx, hY, hp] at h
      cases h
    | some plan =>
      rw [OTC.predict.eq_def, hmx, hY, hp] at h
      exact predictRows_mem muY plan us (muX.argwhere X) 0 Z h

/-- Witness for C4: on a concrete fitted corrector the prediction for
`[[2]]` is `[[5]]`, and `[5]` is a bin center of the reference histogram. -/
theorem otc_predict_rows_are_bin_centers_witness : [(5 : ℚ)] ∈ hYC.c := by
  have h := otc_predict_rows_are_bin_centers sFitC [[(2 : ℚ)]] usC [[(5 : ℚ)]] hYC rfl
    predict_sFitC_eval
  exact h [(5 : ℚ)] (by simp)

/-- Claim C5: `predict` on a corrector whose state was never populated by
`fit` (fresh from `__init__`) fails immediately, before any sampling, for
every query matrix and random stream. -/
theorem otc_predict_before_fit_fails
    (bw bo : Option Vec) (ot : Solver) (X : Mat) (us : Nat → ℚ) :
    OTC.predict (OTC.init bw bo ot) X us = none := rfl

/-- Claim C6: a successful `OTC.predict` output has the same number of rows
as the query matrix (given that the source-bin lookup yields one index per
query row) and the fitted feature dimensionality as its column count (given
that the reference bin centers all have that dimensionality). -/
theorem otc_predict_shape
    (s : OTC) (X : Mat) (us : Nat → ℚ) (Z : Mat) (muX muY : Hist) (d : Nat)
    (hX : s.muX = some muX) (hY : s.muY = some muY)
    (hlen : (muX.argwhere X).length = X.length)
    (hc : ∀ c ∈ muY.c, c.length = d)
    (h : OTC.predict s X us = some Z) :
    Z.length = X.length ∧ ∀ z ∈ Z, z.length = d := by
  cases hp : s.plan with
  | none =>
    rw [OTC.predict.eq_def, hX, hY, hp] at h
    cases h
  | some plan =>
    rw [OTC.predict.eq_def, hX, hY, hp] at h
    constructor
    · rw [predictRows_length muY plan us (muX.argwhere X) 0 Z h]
      exact hlen
    · intro z hz
      exact hc z (predictRows_mem muY plan us (muX.argwhere X) 0 Z h z hz)

/-- Witness for C6: on the concrete fitted corrector, the prediction for the
one-row query `[[2]]` has one row and one column. -/
theorem otc_predict_shape_witness :
    ([[(5 : ℚ)]] : Mat).length = ([[(2 : ℚ)]] : Mat).length ∧
    ∀ z ∈ ([[(5 : ℚ)]] : Mat), z.length = 1 := by
  exact otc_predict_shape sFitC [[(2 : ℚ)]] usC [[(5 : ℚ)]] hXC hYC 1 rfl rfl
    rfl (by simp [hYC]) predict_sFitC_eval

/-- Claim C7: `OTC.fit` determines `bin_width` as the caller-supplied value
when present and otherwise as the external estimator's joint estimate on
`[Y0, X0]`; `bin_origin` as the caller-supplied value, else the zero vector
with the dimensionality of the determined `bin_width`; and builds both
histograms `muY` (from `Y0`) and `muX` (from `X0`) with these identical
stored `bin_width`/`bin_origin` vectors. -/
theorem otc_fit_grid_params
    (mkH : Mat → Vec → Vec → Hist) (bwe : List Mat → Vec)
    (run : Solver → Hist → Hist → Solver) (sid : Nat) (s : OTC) (Y0 X0 : Mat) :
    (∀ w, s.bin_width = some w →
        (OTC.fit mkH bwe run sid s Y0 X0).1.bin_width = some w) ∧
    (s.bin_width = none →
        (OTC.fit mkH bwe run sid s Y0 X0).1.bin_width = some (bwe [Y0, X0])) ∧
    (∀ o, s.bin_origin = some o →
        (OTC.fit mkH bwe run sid s Y0 X0).1.bin_origin = some o) ∧
    (s.bin_origin = none →
        (OTC.fit mkH bwe run sid s Y0 X0).1.bin_origin
          = some (List.replicate (OTC.fitBW bwe s Y0 X0).length 0)) ∧
    (OTC.fit mkH bwe run sid s Y0 X0).1.muY
        = some (mkH Y0 (OTC.fitGridW bwe s Y0 X0) (OTC.fitGridO bwe s Y0 X0)) ∧
    (OTC.fit mkH bwe run sid s Y0 X0).1.muX
        = some (mkH X0 (OTC.fitGridW bwe s Y0 X0) (OTC.fitGridO bwe s Y0 X0)) ∧
    (OTC.fit mkH bwe run sid s Y0 X0).1.bin_width = some (OTC.fitGridW bwe s Y0 X0) ∧
    (OTC.fit mkH bwe run sid s Y0 X0).1.bin_origin = some (OTC.fitGridO bwe s Y0 X0) := by
  refine ⟨fun w hw => ?_, fun h0 => ?_, fun o ho => ?_, fun h1 => ?_, rfl, rfl, rfl, rfl⟩
  · show some (OTC.fitGridW bwe s Y0 X0) = some w
    simp [OTC.fitGridW, OTC.fitBW, hw, ravel]
  · show some (OTC.fitGridW bwe s Y0 X0) = some (bwe [Y0, X0])
    simp [OTC.fitGridW, OTC.fitBW, h0, ravel]
  · show some (OTC.fitGridO bwe s Y0 X0) = some o
    simp [OTC.fitGridO, OTC.fitBO, ho, ravel]
  · show some (OTC.fitGridO bwe s Y0 X0)
        = some (List.replicate (OTC.fitBW bwe s Y0 X0).length 0)
    simp [OTC.fitGridO, OTC.fitBO, OTC.fitGridW, h1, ravel]

/-- Witness for C7: a concrete fit with no caller-supplied `bin_width`
stores the estimator's joint estimate `[1]`. -/
theorem otc_fit_grid_params_witness :
    (OTC.fit mkHC bweC runOKC 3 (OTC.init none none ot0) [[2]] [[4]]).1.bin_width
      = some [1] := by
  exact (otc_fit_grid_params mkHC bweC runOKC 3
    (OTC.init none none ot0) [[2]] [[4]]).2.1 rfl

/-- Counterexample to claim C8: the solver instance retained from the first
fit IS reused by a second fit to compute the new plan.  On this concrete
corrector, the list of solver-instance ids the second `fit` runs is exactly
the singleton holding the retained instance's id (the configured instance,
id 0), refuting the claim that a second call to fit does not reuse the
retained instance. -/
theorem otc_second_fit_reuses_retained_solver_cex :
    (OTC.fit mkHC bweC runOKC 4 s1C [[6]] [[8]]).2.2 = [s1C.ot.instId] ∧
    s1C.ot.instId = ot0.instId := by decide

/-- Claim C8 amended: the solver instance kept on the corrector is retained
for introspection AND reused across fits — every call to `fit` first runs
the solver instance currently stored on the corrector (after a fallback,
that is the Sinkhorn instance rather than the configured one). -/
theorem otc_fit_runs_retained_solver_first
    (mkH : Mat → Vec → Vec → Hist) (bwe : List Mat → Vec)
    (run : Solver → Hist → Hist → Solver) (sid : Nat) (s : OTC) (Y0 X0 : Mat) :
    ((OTC.fit mkH bwe run sid s Y0 X0).2.2).head? = some s.ot.instId := by
  show ((OTC.fitRun run sid s.ot (OTC.fitMuX mkH bwe s Y0 X0)
      (OTC.fitMuY mkH bwe s Y0 X0)).2.2).head? = some s.ot.instId
  unfold OTC.fitRun
  by_cases h : (run s.ot (OTC.fitMuX mkH bwe s Y0 X0) (OTC.fitMuY mkH bwe s Y0 X0)).state
  · simp [h]
  · simp [h]

/-- Claim C9: after any `OTC.fit` the corrector's `bin_width` and
`bin_origin` are populated (non-`None` 1-D vectors), and for a corrector
constructed with `bin_width = None` a second fit on new datasets reuses the
`bin_width` estimated and stored by the first fit — independent of the new
datasets and of whatever estimator the second fit would use. -/
theorem otc_refit_reuses_estimated_bin_width
    (mkH : Mat → Vec → Vec → Hist) (bwe : List Mat → Vec)
    (run : Solver → Hist → Hist → Solver) (sid : Nat)
    (bo : Option Vec) (ot : Solver) (Y0 X0 : Mat)
    (mkH' : Mat → Vec → Vec → Hist) (bwe' : List Mat → Vec)
    (run' : Solver → Hist → Hist → Solver) (sid' : Nat) (Y1 X1 : Mat) (s : OTC) :
    ((OTC.fit mkH bwe run sid s Y0 X0).1.bin_width).isSome = true ∧
    ((OTC.fit mkH bwe run sid s Y0 X0).1.bin_origin).isSome = true ∧
    (OTC.fit mkH bwe run sid (OTC.init none bo ot) Y0 X0).1.bin_width
      = some (bwe [Y0, X0]) ∧
    (OTC.fit mkH' bwe' run' sid'
        ((OTC.fit mkH bwe run sid (OTC.init none bo ot) Y0 X0).1) Y1 X1).1.bin_width
      = some (bwe [Y0, X0]) :=
  ⟨rfl, rfl, rfl, rfl⟩

/-- Claim C10: a fitted `ECBC` corrector's `predict` returns a pair of two
corrected matrices when `X0` is given and a single corrected matrix when it
is `None`; in both cases every returned matrix is the corresponding `CDFt`
prediction passed through the fitted Schaake-shuffle. -/
theorem ecbc_predict_pair_or_single (e : ECBC) (X1 : Mat) :
    (∀ x0, ECBC.predict e X1 (some x0)
        = BCOut.pair (e.ss (e.cdft2 X1 x0).1) (e.ss (e.cdft2 X1 x0).2)) ∧
    ECBC.predict e X1 none = BCOut.single (e.ss (e.cdft1 X1)) :=
  ⟨fun _ => rfl, rfl⟩

end SBCK
